import Mathlib

/-!
Shallow embedding of `src/notion-server/src/ethereum/mod.rs`.

The Rust module implements a small ledger (`Simulation`) holding a
`BeaconChain` (an append-only `Vec` of execution environments, i.e. opaque
byte strings registered via base64-encoded text) and a `Vec` of
`ShardChain`s, each an append-only `Vec` of `ShardBlock`s of transactions.

Modelling conventions:
- Rust `Vec<T>` is `List T`; `HashMap<K, V>` (never written in the source)
  is an association list `List (K × V)`.
- A byte (`u8`) is a `Nat` whose meaningful values are `< 256`; a Rust
  `String` is a `List Char`.
- `usize`/`u32` arithmetic: the source truncates lengths with `as u32`
  when returning indices; this is modelled by `% U32MOD` with
  `U32MOD = 2 ^ 32`.  Look-ups cast `u32 as usize`, which is lossless.
- `&mut self` methods become functions `Simulation → args → result × Simulation`
  (the returned state equals the input state when the method fails, exactly
  as in Rust, where the early `?`/`return Err` paths do not mutate).
- `base64::encode` / `base64::decode` (external crate, standard alphabet,
  canonical `=` padding) are modelled by `base64encode` / `base64decode`
  below; `base64::DecodeError` values are collapsed into the single
  `Error.Decode` constructor (the Rust `Decode` variant stores the cause
  and a backtrace purely for diagnostics).
-/

/-- The modulus used by Rust `as u32` casts. -/
def U32MOD : Nat := 2 ^ 32

/-- Character of the standard base64 alphabet at position `n` (defined for
`n < 64`): `A`-`Z`, `a`-`z`, `0`-`9`, `+`, `/`. -/
def b64char (n : Nat) : Char :=
  if n < 26 then Char.ofNat (65 + n)
  else if n < 52 then Char.ofNat (97 + (n - 26))
  else if n < 62 then Char.ofNat (48 + (n - 52))
  else if n = 62 then '+'
  else '/'

/-- Position of character `c` in the standard base64 alphabet, `none` for
characters outside the alphabet (including the pad character `=`). -/
def b64val (c : Char) : Option Nat :=
  let n := c.toNat
  if 65 ≤ n ∧ n ≤ 90 then some (n - 65)
  else if 97 ≤ n ∧ n ≤ 122 then some (n - 71)
  else if 48 ≤ n ∧ n ≤ 57 then some (n + 4)
  else if n = 43 then some 62
  else if n = 47 then some 63
  else none

/-- Model of `base64::encode` (standard alphabet, with padding) on a byte
sequence: 3-byte groups become 4 alphabet characters; a final group of 1 or
2 bytes is padded with `==` or `=`. -/
def base64encode : List Nat → List Char
  | [] => []
  | [a] => [b64char (a / 4), b64char (a % 4 * 16), '=', '=']
  | [a, b] => [b64char (a / 4), b64char (a % 4 * 16 + b / 16), b64char (b % 16 * 4), '=']
  | a :: b :: c :: rest =>
      b64char (a / 4) :: b64char (a % 4 * 16 + b / 16) ::
        b64char (b % 16 * 4 + c / 64) :: b64char (c % 64) :: base64encode rest

/-- Model of `base64::decode` (standard alphabet, canonical padding):
consumes 4 characters at a time; rejects characters outside the alphabet,
lengths that are not a multiple of 4, non-final padding, and non-canonical
trailing bits. -/
def base64decode : List Char → Option (List Nat)
  | [] => some []
  | c1 :: c2 :: c3 :: c4 :: rest =>
      match b64val c1, b64val c2 with
      | some v1, some v2 =>
        if c3 = '=' then
          if c4 = '=' ∧ rest = [] ∧ v2 % 16 = 0 then
            some [v1 * 4 + v2 / 16]
          else
            none
        else
          match b64val c3 with
          | some v3 =>
            if c4 = '=' then
              if rest = [] ∧ v3 % 4 = 0 then
                some [v1 * 4 + v2 / 16, v2 % 16 * 16 + v3 / 4]
              else
                none
            else
              match b64val c4 with
              | some v4 =>
                match base64decode rest with
                | some bs =>
                    some ((v1 * 4 + v2 / 16) :: (v2 % 16 * 16 + v3 / 4) ::
                      (v3 % 4 * 64 + v4) :: bs)
                | none => none
              | none => none
          | none => none
      | _, _ => none
  | _ => none

/-- `enum Error` (the `Terminated` variant is produced only by the actor
layer; `Decode`'s `source`/`backtrace` fields are diagnostic only). -/
inductive Error where
  | Decode : Error
  | OutOfBounds (message : List Char) : Error
  | Terminated : Error
deriving DecidableEq

/-- `struct EeIndex(u32)`. -/
structure EeIndex where
  ix : Nat
deriving DecidableEq

/-- `struct ExecutionEnvironment { wasm_code: Vec<u8> }`. -/
structure ExecutionEnvironment where
  wasm_code : List Nat
deriving DecidableEq

/-- `struct ExecutionEnvironmentState { data: [u8; 32] }`. -/
structure ExecutionEnvironmentState where
  data : List Nat
deriving DecidableEq

/-- `struct ShardTransaction { data: Vec<u8>, ee_index: EeIndex }`. -/
structure ShardTransaction where
  data : List Nat
  ee_index : EeIndex
deriving DecidableEq

/-- `struct ShardBlock { transactions: Vec<ShardTransaction> }`. -/
structure ShardBlock where
  transactions : List ShardTransaction
deriving DecidableEq

/-- `struct ShardChain { execution_environment_state: HashMap<EeIndex, ExecutionEnvironmentState>, shard_blocks: Vec<ShardBlock> }`. -/
structure ShardChain where
  execution_environment_state : List (EeIndex × ExecutionEnvironmentState)
  shard_blocks : List ShardBlock
deriving DecidableEq

/-- `ShardChain::new`. -/
def ShardChain.new : ShardChain :=
  { execution_environment_state := [], shard_blocks := [] }

/-- `struct BeaconChain { execution_environments: Vec<ExecutionEnvironment> }`. -/
structure BeaconChain where
  execution_environments : List ExecutionEnvironment
deriving DecidableEq

/-- `BeaconChain::new`. -/
def BeaconChain.new : BeaconChain :=
  { execution_environments := [] }

/-- `BeaconChain::add_execution_environment`: pushes and returns
`EeIndex((len - 1) as u32)` together with the updated chain. -/
def BeaconChain.add_execution_environment (bc : BeaconChain)
    (ee : ExecutionEnvironment) : EeIndex × BeaconChain :=
  let envs := bc.execution_environments ++ [ee]
  (⟨(envs.length - 1) % U32MOD⟩, { execution_environments := envs })

/-- `struct Simulation { beacon_chain: BeaconChain, shard_chains: Vec<ShardChain> }`. -/
structure Simulation where
  beacon_chain : BeaconChain
  shard_chains : List ShardChain
deriving DecidableEq

/-- `Simulation::new`. -/
def Simulation.new : Simulation :=
  { beacon_chain := BeaconChain.new, shard_chains := [] }

/-- `args::ExecutionEnvironment`. -/
structure ArgsExecutionEnvironment where
  base64_encoded_wasm_code : List Char
deriving DecidableEq

/-- `impl From<&ExecutionEnvironment> for args::ExecutionEnvironment`. -/
def ArgsExecutionEnvironment.ofEE (ee : ExecutionEnvironment) : ArgsExecutionEnvironment :=
  { base64_encoded_wasm_code := base64encode ee.wasm_code }

/-- `impl TryFrom<args::ExecutionEnvironment> for ExecutionEnvironment`. -/
def ExecutionEnvironment.tryFrom (a : ArgsExecutionEnvironment) :
    Except Error ExecutionEnvironment :=
  match base64decode a.base64_encoded_wasm_code with
  | some wasm_code => .ok { wasm_code := wasm_code }
  | none => .error .Decode

/-- `args::ShardTransaction`. -/
structure ArgsShardTransaction where
  base64_encoded_data : List Char
  ee_index : Nat
deriving DecidableEq

/-- `impl From<&ShardTransaction> for args::ShardTransaction`. -/
def ArgsShardTransaction.ofTx (st : ShardTransaction) : ArgsShardTransaction :=
  { base64_encoded_data := base64encode st.data, ee_index := st.ee_index.ix }

/-- `impl TryFrom<&args::ShardTransaction> for ShardTransaction`. -/
def ShardTransaction.tryFrom (a : ArgsShardTransaction) :
    Except Error ShardTransaction :=
  match base64decode a.base64_encoded_data with
  | some data => .ok { data := data, ee_index := ⟨a.ee_index⟩ }
  | none => .error .Decode

/-- `args::ShardBlock`. -/
structure ArgsShardBlock where
  transactions : List ArgsShardTransaction
deriving DecidableEq

/-- `impl From<&ShardBlock> for args::ShardBlock`. -/
def ArgsShardBlock.ofBlock (sb : ShardBlock) : ArgsShardBlock :=
  { transactions := sb.transactions.map ArgsShardTransaction.ofTx }

/-- The `.iter().map(try_from).collect::<Result<Vec<_>>>()` step of
`impl TryFrom<args::ShardBlock> for ShardBlock`: stops at the first
failing transaction. -/
def collectTransactions : List ArgsShardTransaction →
    Except Error (List ShardTransaction)
  | [] => .ok []
  | t :: ts =>
      match ShardTransaction.tryFrom t with
      | .error e => .error e
      | .ok st =>
          match collectTransactions ts with
          | .error e => .error e
          | .ok sts => .ok (st :: sts)

/-- `impl TryFrom<args::ShardBlock> for ShardBlock`. -/
def ShardBlock.tryFrom (a : ArgsShardBlock) : Except Error ShardBlock :=
  match collectTransactions a.transactions with
  | .error e => .error e
  | .ok transactions => .ok { transactions := transactions }

/-- `args::GetSimulationState`. -/
structure ArgsGetSimulationState where
deriving DecidableEq

/-- `args::SimulationState`. -/
structure ArgsSimulationState where
  num_execution_environments : Nat
  num_shard_chains : Nat
deriving DecidableEq

/-- `args::CreateExecutionEnvironment`. -/
structure ArgsCreateExecutionEnvironment where
  execution_environment : ArgsExecutionEnvironment
deriving DecidableEq

/-- `args::GetExecutionEnvironment`. -/
structure ArgsGetExecutionEnvironment where
  execution_environment_index : Nat
deriving DecidableEq

/-- `args::CreateShardChain`. -/
structure ArgsCreateShardChain where
deriving DecidableEq

/-- `args::CreateShardBlock`. -/
structure ArgsCreateShardBlock where
  shard_chain_index : Nat
  shard_block : ArgsShardBlock
deriving DecidableEq

/-- `args::GetShardBlock`. -/
structure ArgsGetShardBlock where
  shard_chain_index : Nat
  shard_block_index : Nat
deriving DecidableEq

/-- `Simulation::simulation_state`: the counts, truncated by `as u32`. -/
def Simulation.simulation_state (s : Simulation) (_ : ArgsGetSimulationState) :
    ArgsSimulationState :=
  { num_execution_environments := s.beacon_chain.execution_environments.length % U32MOD,
    num_shard_chains := s.shard_chains.length % U32MOD }

/-- `Simulation::create_execution_environment`. -/
def Simulation.create_execution_environment (s : Simulation)
    (a : ArgsCreateExecutionEnvironment) : Except Error Nat × Simulation :=
  match ExecutionEnvironment.tryFrom a.execution_environment with
  | .error e => (.error e, s)
  | .ok execution_environment =>
      let (eeIdx, bc) := s.beacon_chain.add_execution_environment execution_environment
      (.ok eeIdx.ix, { s with beacon_chain := bc })

/-- The `OutOfBounds` message of `Simulation::get_execution_environment`:
`format!("No execution environment exists at index: {}", i)`. -/
def eeOobMsg (i : Nat) : List Char :=
  "No execution environment exists at index: ".data ++ (Nat.repr i).data

/-- `Simulation::get_execution_environment`. -/
def Simulation.get_execution_environment (s : Simulation)
    (a : ArgsGetExecutionEnvironment) : Except Error ArgsExecutionEnvironment :=
  match s.beacon_chain.execution_environments.get? a.execution_environment_index with
  | some execution_environment => .ok (ArgsExecutionEnvironment.ofEE execution_environment)
  | none => .error (.OutOfBounds (eeOobMsg a.execution_environment_index))

/-- `Simulation::create_shard_chain`: always succeeds, returns
`(len - 1) as u32` after the push. -/
def Simulation.create_shard_chain (s : Simulation) (_ : ArgsCreateShardChain) :
    Nat × Simulation :=
  let chains := s.shard_chains ++ [ShardChain.new]
  ((chains.length - 1) % U32MOD, { s with shard_chains := chains })

/-- The `OutOfBounds` message of `Simulation::create_shard_block`:
`format!("No shard chain exists at index: {}", i)`. -/
def createOobMsg (i : Nat) : List Char :=
  "No shard chain exists at index: ".data ++ (Nat.repr i).data

/-- `Simulation::create_shard_block`: looks up the shard chain, converts the
whole block (failing on the first bad transaction), then pushes the block
and returns `(len - 1) as u32`. -/
def Simulation.create_shard_block (s : Simulation) (a : ArgsCreateShardBlock) :
    Except Error Nat × Simulation :=
  match s.shard_chains.get? a.shard_chain_index with
  | none => (.error (.OutOfBounds (createOobMsg a.shard_chain_index)), s)
  | some shard_chain =>
      match ShardBlock.tryFrom a.shard_block with
      | .error e => (.error e, s)
      | .ok shard_block =>
          let blocks := shard_chain.shard_blocks ++ [shard_block]
          (.ok ((blocks.length - 1) % U32MOD),
            { s with shard_chains :=
                (s.shard_chains.set a.shard_chain_index
                  { shard_chain with shard_blocks := blocks }) })

/-- The chain-level `OutOfBounds` message of `Simulation::get_shard_block`:
`format!("no shard chain exists at index '{}'", i)`. -/
def chainOobMsg (i : Nat) : List Char :=
  "no shard chain exists at index \x27".data ++ (Nat.repr i).data ++ "\x27".data

/-- The block-level `OutOfBounds` message of `Simulation::get_shard_block`:
`format!("the shard chain at index '{}' does not contain a block at index '{}'", i, j)`. -/
def blockOobMsg (i j : Nat) : List Char :=
  "the shard chain at index \x27".data ++ (Nat.repr i).data ++
    "\x27 does not contain a block at index \x27".data ++ (Nat.repr j).data ++
    "\x27".data

/-- `Simulation::get_shard_block`. -/
def Simulation.get_shard_block (s : Simulation) (a : ArgsGetShardBlock) :
    Except Error ArgsShardBlock :=
  match s.shard_chains.get? a.shard_chain_index with
  | some shard_chain =>
      match shard_chain.shard_blocks.get? a.shard_block_index with
      | some shard_block => .ok (ArgsShardBlock.ofBlock shard_block)
      | none => .error (.OutOfBounds (blockOobMsg a.shard_chain_index a.shard_block_index))
  | none => .error (.OutOfBounds (chainOobMsg a.shard_chain_index))

/-- A ledger with one (empty) shard chain and no execution environments. -/
def simOneChain : Simulation := ⟨⟨[]⟩, [ShardChain.new]⟩

/-- A ledger with one registered execution environment (bytes of `"hi"`). -/
def simOneEE : Simulation := ⟨⟨[⟨[104, 105]⟩]⟩, []⟩

/-- A transaction argument whose payload is valid base64 (`"YQ=="`, the
bytes of `"a"`). -/
def goodTx : ArgsShardTransaction := ⟨"YQ==".data, 0⟩

/-- A transaction argument whose payload is not base64. -/
def badTx : ArgsShardTransaction := ⟨"!".data, 0⟩

/-- A block argument with one malformed payload among well-formed ones. -/
def mixedBlock : ArgsShardBlock := ⟨[goodTx, badTx, goodTx]⟩

/-- A stored shard block holding one transaction. -/
def oneBlock : ShardBlock := ⟨[⟨[97], ⟨0⟩⟩]⟩

/-- A ledger with one shard chain that holds one block. -/
def simWithBlock : Simulation := ⟨⟨[]⟩, [⟨[], [oneBlock]⟩]⟩

/-- The argument used by the spec scenario: registering the bytes of
`"hello"` (base64 `"aGVsbG8="`). -/
def helloArg : ArgsCreateExecutionEnvironment := ⟨⟨"aGVsbG8=".data⟩⟩

/-- Registering an empty code payload (the empty string decodes to `[]`). -/
def emptyCodeArg : ArgsCreateExecutionEnvironment := ⟨⟨[]⟩⟩

/-- A ledger whose registry already holds `2 ^ 32` execution environments. -/
def bigSimC1 : Simulation := ⟨⟨List.replicate U32MOD ⟨[]⟩⟩, []⟩

/-- A ledger with `2 ^ 32` registered environments, all with code `[0]`. -/
def bigSimC2 : Simulation := ⟨⟨⟨[0]⟩ :: List.replicate (U32MOD - 1) ⟨[0]⟩⟩, []⟩

/-- A ledger with `2 ^ 32` shard chains. -/
def bigSimC7 : Simulation := ⟨⟨[]⟩, List.replicate U32MOD ShardChain.new⟩

/-- A block argument whose only transaction references execution
environment `999999` — far beyond any registered environment. -/
def hugeIdxBlock : ArgsShardBlock := ⟨[⟨"YQ==".data, 999999⟩]⟩

/-- The block argument used by the frame-property witness. -/
def blkGood : ArgsShardBlock := ⟨[goodTx]⟩

/-- `simWithBlock` after registering `"hello"`. -/
def stEE : Simulation := ⟨⟨[⟨[104, 101, 108, 108, 111]⟩]⟩, [⟨[], [oneBlock]⟩]⟩

/-- `simWithBlock` after creating one more shard chain. -/
def stChain : Simulation := ⟨⟨[]⟩, [⟨[], [oneBlock]⟩, ShardChain.new]⟩

/-- `simWithBlock` after appending the decoded `blkGood` to shard chain 0. -/
def stBlock : Simulation := ⟨⟨[]⟩, [⟨[], [oneBlock, ⟨[⟨[97], ⟨0⟩⟩]⟩]⟩]⟩

/-- `n` iterated `create_execution_environment` calls with argument `a`. -/
def iterRegister (a : ArgsCreateExecutionEnvironment) : Nat → Simulation → Simulation
  | 0, s => s
  | n + 1, s => iterRegister a n (Simulation.create_execution_environment s a).2

/-- `n` iterated `create_shard_chain` calls. -/
def iterChains : Nat → Simulation → Simulation
  | 0, s => s
  | n + 1, s => iterChains n (Simulation.create_shard_chain s ⟨⟩).2

/-! ## Theorems -/

theorem b64val_b64char : ∀ n, n < 64 → b64val (b64char n) = some n := by decide

theorem b64char_ne_pad : ∀ n, n < 64 → b64char n ≠ '=' := by decide

/-- Decoding an encoded byte sequence recovers the bytes. -/
theorem base64_roundtrip : ∀ (bs : List Nat), (∀ b ∈ bs, b < 256) →
    base64decode (base64encode bs) = some bs
  | [] => fun _ => rfl
  | [a] => fun h => by
      have ha : a < 256 := h a (by simp)
      have h1 := b64val_b64char (a / 4) (by omega)
      have h2 := b64val_b64char (a % 4 * 16) (by omega)
      simp only [base64encode, base64decode, h1, h2, Nat.mul_mod_left]
      simp only [and_self, if_true, ite_true, Option.some.injEq, List.cons.injEq, and_true]
      omega
  | [a, b] => fun h => by
      have ha : a < 256 := h a (by simp)
      have hb : b < 256 := h b (by simp)
      have h1 := b64val_b64char (a / 4) (by omega)
      have h2 := b64val_b64char (a % 4 * 16 + b / 16) (by omega)
      have h3 := b64val_b64char (b % 16 * 4) (by omega)
      have e3 := b64char_ne_pad (b % 16 * 4) (by omega)
      simp only [base64encode, base64decode, h1, h2, h3]
      rw [if_neg e3]
      simp only [Nat.mul_mod_left, and_self, true_and, if_true, ite_true,
        Option.some.injEq, List.cons.injEq, and_true]
      exact ⟨by omega, by omega⟩
  | a :: b :: c :: rest => fun h => by
      have ha : a < 256 := h a (by simp)
      have hb : b < 256 := h b (by simp)
      have hc : c < 256 := h c (by simp)
      have ih := base64_roundtrip rest (fun x hx => h x (by simp [hx]))
      have h1 := b64val_b64char (a / 4) (by omega)
      have h2 := b64val_b64char (a % 4 * 16 + b / 16) (by omega)
      have h3 := b64val_b64char (b % 16 * 4 + c / 64) (by omega)
      have h4 := b64val_b64char (c % 64) (by omega)
      have e3 := b64char_ne_pad (b % 16 * 4 + c / 64) (by omega)
      have e4 := b64char_ne_pad (c % 64) (by omega)
      simp only [base64encode, base64decode, h1, h2, h3, h4]
      rw [if_neg e3, if_neg e4]
      simp only [ih, Option.some.injEq, List.cons.injEq, and_true]
      exact ⟨by omega, by omega, by omega⟩

/-- `ShardTransaction.tryFrom` fails only with `Decode`. -/
theorem ShardTransaction.tryFrom_error {t : ArgsShardTransaction} {e : Error}
    (h : ShardTransaction.tryFrom t = .error e) : e = .Decode := by
  unfold ShardTransaction.tryFrom at h
  cases hd : base64decode t.base64_encoded_data
  · rw [hd] at h; simp_all
  · rw [hd] at h; simp_all

/-- A block with at least one undecodable transaction converts to
`Error.Decode` (the collection stops at the first failure). -/
theorem collectTransactions_decode_fail : ∀ (ts : List ArgsShardTransaction),
    (∃ t ∈ ts, base64decode t.base64_encoded_data = none) →
    collectTransactions ts = .error .Decode
  | [], h => by simp at h
  | t :: ts, h => by
      rcases h with ⟨u, hu, hdec⟩
      rcases List.mem_cons.mp hu with rfl | hmem
      · unfold collectTransactions ShardTransaction.tryFrom
        rw [hdec]
      · unfold collectTransactions
        cases htf : ShardTransaction.tryFrom t with
        | error e => rw [ShardTransaction.tryFrom_error htf]
        | ok st => rw [collectTransactions_decode_fail ts ⟨u, hmem, hdec⟩]

/-- If every transaction payload decodes, the whole block converts. -/
theorem collectTransactions_ok : ∀ (ts : List ArgsShardTransaction),
    (∀ t ∈ ts, ∃ bs, base64decode t.base64_encoded_data = some bs) →
    ∃ sts, collectTransactions ts = .ok sts
  | [], _ => ⟨[], rfl⟩
  | t :: ts, h => by
      obtain ⟨bs, hbs⟩ := h t (by simp)
      obtain ⟨sts, hsts⟩ := collectTransactions_ok ts (fun u hu => h u (by simp [hu]))
      refine ⟨⟨bs, ⟨t.ee_index⟩⟩ :: sts, ?_⟩
      unfold collectTransactions ShardTransaction.tryFrom
      rw [hbs, hsts]

/-- If conversion of a transaction list fails, the error is `Decode` and some
transaction payload is undecodable. -/
theorem collectTransactions_error : ∀ (ts : List ArgsShardTransaction) (e : Error),
    collectTransactions ts = .error e →
    e = .Decode ∧ ∃ t ∈ ts, base64decode t.base64_encoded_data = none
  | [], e, h => by simp [collectTransactions] at h
  | t :: ts, e, h => by
      unfold collectTransactions at h
      cases htf : ShardTransaction.tryFrom t with
      | error e' =>
          rw [htf] at h
          cases h
          refine ⟨ShardTransaction.tryFrom_error htf, t, by simp, ?_⟩
          unfold ShardTransaction.tryFrom at htf
          cases hd : base64decode t.base64_encoded_data
          · rfl
          · rw [hd] at htf; simp_all
      | ok st =>
          rw [htf] at h
          cases hc : collectTransactions ts with
          | error e' =>
              rw [hc] at h
              cases h
              obtain ⟨he, u, hu, hdec⟩ := collectTransactions_error ts e hc
              exact ⟨he, u, by simp [hu], hdec⟩
          | ok sts => rw [hc] at h; cases h

/-- Claim C3: a block containing a malformed (non-base64) transaction
payload, appended to an existing shard chain, is rejected in full:
`create_shard_block` returns the `Decode` error and the entire ledger state
(the shard chain's block list included) is returned unchanged. -/
theorem create_shard_block_decode_failure (s : Simulation) (i : Nat)
    (blk : ArgsShardBlock) (hi : i < s.shard_chains.length)
    (hbad : ∃ t ∈ blk.transactions, base64decode t.base64_encoded_data = none) :
    Simulation.create_shard_block s ⟨i, blk⟩ = (.error .Decode, s) := by
  have hg : s.shard_chains.get? i = some (s.shard_chains.get ⟨i, hi⟩) :=
    List.get?_eq_get hi
  simp only [Simulation.create_shard_block, hg, ShardBlock.tryFrom,
    collectTransactions_decode_fail blk.transactions hbad]

theorem create_shard_block_decode_failure_witness :
    Simulation.create_shard_block simOneChain ⟨0, mixedBlock⟩ =
      (.error .Decode, simOneChain) :=
  create_shard_block_decode_failure simOneChain 0 mixedBlock (by decide) (by decide)

/-- Claim C4: for every state and every shard index at or beyond the number
of shard chains, `create_shard_block` returns the `OutOfBounds` error (with
the index in its message) regardless of the block's contents, and returns
the state unchanged. -/
theorem create_shard_block_oob (s : Simulation) (i : Nat) (blk : ArgsShardBlock)
    (hi : s.shard_chains.length ≤ i) :
    Simulation.create_shard_block s ⟨i, blk⟩ =
      (.error (.OutOfBounds (createOobMsg i)), s) := by
  have hg : s.shard_chains.get? i = none := List.get?_eq_none.mpr hi
  simp only [Simulation.create_shard_block, hg]

theorem create_shard_block_oob_witness :
    Simulation.create_shard_block Simulation.new ⟨0, mixedBlock⟩ =
      (.error (.OutOfBounds (createOobMsg 0)), Simulation.new) :=
  create_shard_block_oob Simulation.new 0 mixedBlock (by decide)

/-- Claim C5: `get_execution_environment i` fails with `OutOfBounds` exactly
when `i` is at or beyond the registry length, and for `i` inside the
registry returns the stored record re-encoded to text. -/
theorem get_execution_environment_spec (s : Simulation) (i : Nat) :
    (s.beacon_chain.execution_environments.length ≤ i →
      Simulation.get_execution_environment s ⟨i⟩ =
        .error (.OutOfBounds (eeOobMsg i))) ∧
    (∀ h : i < s.beacon_chain.execution_environments.length,
      Simulation.get_execution_environment s ⟨i⟩ =
        .ok (ArgsExecutionEnvironment.ofEE
          (s.beacon_chain.execution_environments.get ⟨i, h⟩))) := by
  constructor
  · intro hle
    have hg : s.beacon_chain.execution_environments.get? i = none :=
      List.get?_eq_none.mpr hle
    simp only [Simulation.get_execution_environment, hg]
  · intro h
    have hg := List.get?_eq_get h
    simp only [Simulation.get_execution_environment, hg]

theorem get_execution_environment_spec_witness :
    Simulation.get_execution_environment simOneEE ⟨1⟩ =
        .error (.OutOfBounds (eeOobMsg 1)) ∧
    Simulation.get_execution_environment simOneEE ⟨0⟩ =
        .ok (ArgsExecutionEnvironment.ofEE ⟨[104, 105]⟩) :=
  ⟨(get_execution_environment_spec simOneEE 1).1 (by decide),
   (get_execution_environment_spec simOneEE 0).2 (by decide)⟩

/-- The chain-level message of `get_shard_block` starts with `n`. -/
theorem chainOobMsg_head (i : Nat) : (chainOobMsg i).head? = some 'n' := rfl

/-- The block-level message of `get_shard_block` starts with `t`. -/
theorem blockOobMsg_head (i j : Nat) : (blockOobMsg i j).head? = some 't' := rfl

/-- Claim C8: `get_shard_block` fails with `OutOfBounds` exactly when the
shard index or the block index is out of range, the two failure messages
are distinct (each naming the invalid index), and otherwise the stored
block is returned. -/
theorem get_shard_block_spec (s : Simulation) (i j : Nat) :
    (s.shard_chains.length ≤ i →
      Simulation.get_shard_block s ⟨i, j⟩ =
        .error (.OutOfBounds (chainOobMsg i))) ∧
    (∀ h : i < s.shard_chains.length,
      ((s.shard_chains.get ⟨i, h⟩).shard_blocks.length ≤ j →
        Simulation.get_shard_block s ⟨i, j⟩ =
          .error (.OutOfBounds (blockOobMsg i j))) ∧
      (∀ hj : j < (s.shard_chains.get ⟨i, h⟩).shard_blocks.length,
        Simulation.get_shard_block s ⟨i, j⟩ =
          .ok (ArgsShardBlock.ofBlock
            ((s.shard_chains.get ⟨i, h⟩).shard_blocks.get ⟨j, hj⟩)))) ∧
    (∀ a b c : Nat, chainOobMsg a ≠ blockOobMsg b c) := by
  refine ⟨?_, ?_, ?_⟩
  · intro hle
    have hg : s.shard_chains.get? i = none := List.get?_eq_none.mpr hle
    simp only [Simulation.get_shard_block, hg]
  · intro h
    have hg := List.get?_eq_get h
    constructor
    · intro hle
      have hb : (s.shard_chains.get ⟨i, h⟩).shard_blocks.get? j = none :=
        List.get?_eq_none.mpr hle
      simp only [Simulation.get_shard_block, hg, hb]
    · intro hj
      have hb := List.get?_eq_get hj
      simp only [Simulation.get_shard_block, hg, hb]
  · intro a b c hEq
    have h2 := congrArg List.head? hEq
    rw [chainOobMsg_head, blockOobMsg_head] at h2
    exact absurd h2 (by decide)

theorem get_shard_block_spec_witness :
    Simulation.get_shard_block simWithBlock ⟨5, 0⟩ =
        .error (.OutOfBounds (chainOobMsg 5)) ∧
    Simulation.get_shard_block simWithBlock ⟨0, 3⟩ =
        .error (.OutOfBounds (blockOobMsg 0 3)) ∧
    Simulation.get_shard_block simWithBlock ⟨0, 0⟩ =
        .ok (ArgsShardBlock.ofBlock oneBlock) ∧
    chainOobMsg 1 ≠ blockOobMsg 2 3 :=
  ⟨(get_shard_block_spec simWithBlock 5 0).1 (by decide),
   ((get_shard_block_spec simWithBlock 0 3).2.1 (by decide)).1 (by decide),
   ((get_shard_block_spec simWithBlock 0 0).2.1 (by decide)).2 (by decide),
   (get_shard_block_spec simWithBlock 0 0).2.2 1 2 3⟩

/-- Evaluation of `create_execution_environment` on a payload that decodes
to `bs`: the returned index is the old registry length reduced `% 2^32`,
and the environment is appended. -/
theorem create_ee_eq (s : Simulation) (code : List Char) (bs : List Nat)
    (hd : base64decode code = some bs) :
    Simulation.create_execution_environment s ⟨⟨code⟩⟩ =
      (.ok (s.beacon_chain.execution_environments.length % U32MOD),
       { s with beacon_chain := ⟨s.beacon_chain.execution_environments ++ [⟨bs⟩]⟩ }) := by
  unfold Simulation.create_execution_environment ExecutionEnvironment.tryFrom
  simp only [hd, BeaconChain.add_execution_environment, List.length_append,
    List.length_singleton, Nat.add_sub_cancel]

/-- Claim C1 (amended): a successful `create_execution_environment` returns
the registry length before the append reduced mod `2^32` — hence exactly
`0, 1, 2, …` in call order while the registry stays below `2^32` entries —
and appends exactly one environment. -/
theorem create_execution_environment_spec (s : Simulation)
    (a : ArgsCreateExecutionEnvironment) (ix : Nat) (s' : Simulation)
    (h : Simulation.create_execution_environment s a = (.ok ix, s')) :
    ix = s.beacon_chain.execution_environments.length % U32MOD ∧
    s'.beacon_chain.execution_environments.length =
      s.beacon_chain.execution_environments.length + 1 ∧
    s'.shard_chains = s.shard_chains ∧
    (s.beacon_chain.execution_environments.length < U32MOD →
      ix = s.beacon_chain.execution_environments.length) := by
  unfold Simulation.create_execution_environment at h
  cases htf : ExecutionEnvironment.tryFrom a.execution_environment with
  | error e => rw [htf] at h; simp at h
  | ok ee =>
      rw [htf] at h
      simp only [BeaconChain.add_execution_environment] at h
      injection h with h1 h2
      injection h1 with h1
      subst h2
      refine ⟨?_, by simp, rfl, ?_⟩
      · rw [← h1]; simp
      · intro hlt
        rw [← h1]
        simp [Nat.mod_eq_of_lt hlt]

theorem create_execution_environment_spec_witness :
    0 = Simulation.new.beacon_chain.execution_environments.length % U32MOD ∧
    (⟨⟨[⟨[104, 101, 108, 108, 111]⟩]⟩, []⟩ : Simulation).beacon_chain.execution_environments.length =
      Simulation.new.beacon_chain.execution_environments.length + 1 ∧
    (⟨⟨[⟨[104, 101, 108, 108, 111]⟩]⟩, []⟩ : Simulation).shard_chains = Simulation.new.shard_chains ∧
    (Simulation.new.beacon_chain.execution_environments.length < U32MOD →
      0 = Simulation.new.beacon_chain.execution_environments.length) :=
  create_execution_environment_spec Simulation.new helloArg 0
    ⟨⟨[⟨[104, 101, 108, 108, 111]⟩]⟩, []⟩ rfl

/-- Two ledgers with the same registry and shard-chain list are equal. -/
theorem Simulation.ext_of (s t : Simulation)
    (h1 : s.beacon_chain.execution_environments = t.beacon_chain.execution_environments)
    (h2 : s.shard_chains = t.shard_chains) : s = t := by
  cases s with
  | mk bc sc =>
    cases bc
    cases t with
    | mk bc' sc' =>
      cases bc'
      simp_all

/-- Iterated registration of a fixed decodable payload appends one
environment per call and never touches the shard chains. -/
theorem iterRegister_envs (a : ArgsCreateExecutionEnvironment) (bs : List Nat)
    (hd : base64decode a.execution_environment.base64_encoded_wasm_code = some bs) :
    ∀ (n : Nat) (s : Simulation),
    (iterRegister a n s).beacon_chain.execution_environments =
      s.beacon_chain.execution_environments ++ List.replicate n ⟨bs⟩ ∧
    (iterRegister a n s).shard_chains = s.shard_chains
  | 0, s => by simp [iterRegister]
  | n + 1, s => by
      have hc := create_ee_eq s a.execution_environment.base64_encoded_wasm_code bs hd
      rw [show (⟨⟨a.execution_environment.base64_encoded_wasm_code⟩⟩ :
        ArgsCreateExecutionEnvironment) = a from rfl] at hc
      obtain ⟨ih1, ih2⟩ := iterRegister_envs a bs hd n
        (Simulation.create_execution_environment s a).2
      have h2' : (Simulation.create_execution_environment s a).2.beacon_chain.execution_environments =
          s.beacon_chain.execution_environments ++ [⟨bs⟩] := by rw [hc]
      have h3' : (Simulation.create_execution_environment s a).2.shard_chains =
          s.shard_chains := by rw [hc]
      constructor
      · show (iterRegister a n (Simulation.create_execution_environment s a).2).beacon_chain.execution_environments =
          s.beacon_chain.execution_environments ++ List.replicate (n + 1) ⟨bs⟩
        rw [ih1, h2', List.append_assoc, List.singleton_append, ← List.replicate_succ]
      · show (iterRegister a n (Simulation.create_execution_environment s a).2).shard_chains =
          s.shard_chains
        rw [ih2, h3']

/-- Iterated shard-chain creation appends one empty chain per call and
never touches the beacon chain. -/
theorem iterChains_chains : ∀ (n : Nat) (s : Simulation),
    (iterChains n s).shard_chains = s.shard_chains ++ List.replicate n ShardChain.new ∧
    (iterChains n s).beacon_chain = s.beacon_chain
  | 0, s => by simp [iterChains]
  | n + 1, s => by
      obtain ⟨ih1, ih2⟩ := iterChains_chains n (Simulation.create_shard_chain s ⟨⟩).2
      have h2' : (Simulation.create_shard_chain s ⟨⟩).2.shard_chains =
          s.shard_chains ++ [ShardChain.new] := rfl
      constructor
      · show (iterChains n (Simulation.create_shard_chain s ⟨⟩).2).shard_chains =
          s.shard_chains ++ List.replicate (n + 1) ShardChain.new
        rw [ih1, h2', List.append_assoc, List.singleton_append, ← List.replicate_succ]
      · show (iterChains n (Simulation.create_shard_chain s ⟨⟩).2).beacon_chain = s.beacon_chain
        rw [ih2]
        rfl

/-- `bigSimC1` is the ledger produced by `2^32` accepted registrations. -/
theorem bigSimC1_reachable : iterRegister emptyCodeArg U32MOD Simulation.new = bigSimC1 := by
  obtain ⟨h1, h2⟩ := iterRegister_envs emptyCodeArg [] rfl U32MOD Simulation.new
  refine Simulation.ext_of _ _ ?_ ?_
  · rw [h1]
    exact List.nil_append _
  · rw [h2]
    rfl

/-- `bigSimC2` is the ledger produced by `2^32` accepted registrations of
the payload `"AA=="` (the bytes `[0]`). -/
theorem bigSimC2_reachable :
    iterRegister ⟨⟨"AA==".data⟩⟩ U32MOD Simulation.new = bigSimC2 := by
  obtain ⟨h1, h2⟩ := iterRegister_envs ⟨⟨"AA==".data⟩⟩ [0] rfl U32MOD Simulation.new
  have hpos : 0 < U32MOD := Nat.two_pow_pos 32
  refine Simulation.ext_of _ _ ?_ ?_
  · rw [h1]
    show [] ++ List.replicate U32MOD ⟨[0]⟩ = bigSimC2.beacon_chain.execution_environments
    rw [List.nil_append, show U32MOD = (U32MOD - 1) + 1 from by omega,
      List.replicate_succ]
    rfl
  · rw [h2]
    rfl

/-- `bigSimC7` is the ledger produced by `2^32` shard-chain creations. -/
theorem bigSimC7_reachable : iterChains U32MOD Simulation.new = bigSimC7 := by
  obtain ⟨h1, h2⟩ := iterChains_chains U32MOD Simulation.new
  refine Simulation.ext_of _ _ ?_ ?_
  · rw [h2]
    rfl
  · rw [h1]
    exact List.nil_append _

/-- Claim C1, counterexample to the claim as stated: on a registry that
already holds `2^32` environments, a successful call returns index `0`
(the `as u32` cast wraps), not the registry length before the append. -/
theorem create_execution_environment_wraps :
    iterRegister emptyCodeArg U32MOD Simulation.new = bigSimC1 ∧
    (Simulation.create_execution_environment bigSimC1 emptyCodeArg).1 = .ok 0 ∧
    bigSimC1.beacon_chain.execution_environments.length ≠ 0 := by
  refine ⟨bigSimC1_reachable, ?_⟩
  have henvs : bigSimC1.beacon_chain.execution_environments =
      List.replicate U32MOD ⟨[]⟩ := rfl
  have hlen : bigSimC1.beacon_chain.execution_environments.length = U32MOD := by
    rw [henvs, List.length_replicate]
  constructor
  · rw [show emptyCodeArg = (⟨⟨[]⟩⟩ : ArgsCreateExecutionEnvironment) from rfl,
      create_ee_eq bigSimC1 [] [] rfl]
    show Except.ok (bigSimC1.beacon_chain.execution_environments.length % U32MOD) = .ok 0
    rw [hlen, Nat.mod_self]
  · rw [hlen]
    exact (Nat.two_pow_pos 32).ne.symm

/-- Claim C2 (amended): on any state whose registry holds fewer than `2^32`
environments, registering the base64 encoding of any byte sequence succeeds
with the old registry length as index, and fetching that index returns a
record whose text payload decodes back to the identical original bytes. -/
theorem register_get_roundtrip (s : Simulation) (bs : List Nat)
    (hb : ∀ b ∈ bs, b < 256)
    (hlen : s.beacon_chain.execution_environments.length < U32MOD) :
    ∃ s',
      Simulation.create_execution_environment s ⟨⟨base64encode bs⟩⟩ =
        (.ok s.beacon_chain.execution_environments.length, s') ∧
      ∃ r, Simulation.get_execution_environment s'
          ⟨s.beacon_chain.execution_environments.length⟩ = .ok r ∧
        base64decode r.base64_encoded_wasm_code = some bs := by
  have hc := create_ee_eq s (base64encode bs) bs (base64_roundtrip bs hb)
  rw [Nat.mod_eq_of_lt hlen] at hc
  refine ⟨_, hc, ⟨base64encode bs⟩, ?_, base64_roundtrip bs hb⟩
  unfold Simulation.get_execution_environment
  have hget : (s.beacon_chain.execution_environments ++
      [(⟨bs⟩ : ExecutionEnvironment)]).get?
      s.beacon_chain.execution_environments.length = some ⟨bs⟩ :=
    List.get?_concat_length _ _
  simp only [hget]
  rfl

theorem register_get_roundtrip_witness :
    ∃ s',
      Simulation.create_execution_environment Simulation.new
          ⟨⟨base64encode [104, 105]⟩⟩ =
        (.ok Simulation.new.beacon_chain.execution_environments.length, s') ∧
      ∃ r, Simulation.get_execution_environment s'
          ⟨Simulation.new.beacon_chain.execution_environments.length⟩ = .ok r ∧
        base64decode r.base64_encoded_wasm_code = some [104, 105] :=
  register_get_roundtrip Simulation.new [104, 105] (by decide) (by decide)

/-- Claim C2, counterexample to the claim as stated: on a registry already
holding `2^32` environments (each with code `[0]`), registering the
encoding of `[]` returns the wrapped index `0`, and fetching index `0`
yields the old environment `[0]`, not the registered bytes. -/
theorem register_get_wraps :
    iterRegister ⟨⟨"AA==".data⟩⟩ U32MOD Simulation.new = bigSimC2 ∧
    Simulation.create_execution_environment bigSimC2 ⟨⟨base64encode []⟩⟩ =
      (.ok 0, ⟨⟨bigSimC2.beacon_chain.execution_environments ++ [⟨[]⟩]⟩, []⟩) ∧
    Simulation.get_execution_environment
        ⟨⟨bigSimC2.beacon_chain.execution_environments ++ [⟨[]⟩]⟩, []⟩ ⟨0⟩ =
      .ok ⟨base64encode [0]⟩ ∧
    base64decode (base64encode [0]) = some [0] ∧
    ([0] : List Nat) ≠ [] := by
  have henvs : bigSimC2.beacon_chain.execution_environments =
      ⟨[0]⟩ :: List.replicate (U32MOD - 1) ⟨[0]⟩ := rfl
  have hpos : 0 < U32MOD := Nat.two_pow_pos 32
  have hlen : bigSimC2.beacon_chain.execution_environments.length = U32MOD := by
    rw [henvs, List.length_cons, List.length_replicate]
    omega
  refine ⟨bigSimC2_reachable, ?_, rfl, by decide, by decide⟩
  rw [create_ee_eq bigSimC2 (base64encode []) [] rfl, hlen, Nat.mod_self]
  rfl

/-- Claim C6: transaction `ee_index` references are not bounds-checked:
whenever the shard chain exists and every payload decodes, the block is
accepted whatever the `ee_index` values are; and every failure of
`create_shard_block` is either `OutOfBounds` from a bad shard index or
`Decode` from a malformed payload. -/
theorem create_shard_block_no_ee_check (s : Simulation) (i : Nat)
    (blk : ArgsShardBlock) :
    (i < s.shard_chains.length →
      (∀ t ∈ blk.transactions, (base64decode t.base64_encoded_data).isSome) →
      ∃ ix s', Simulation.create_shard_block s ⟨i, blk⟩ = (.ok ix, s')) ∧
    (∀ e s', Simulation.create_shard_block s ⟨i, blk⟩ = (.error e, s') →
      (s.shard_chains.length ≤ i ∧ e = .OutOfBounds (createOobMsg i)) ∨
      (e = .Decode ∧ ∃ t ∈ blk.transactions, base64decode t.base64_encoded_data = none)) := by
  constructor
  · intro hi hgood
    have hg := List.get?_eq_get hi
    obtain ⟨sts, hsts⟩ := collectTransactions_ok blk.transactions
      (fun t ht => Option.isSome_iff_exists.mp (hgood t ht))
    simp only [Simulation.create_shard_block, hg, ShardBlock.tryFrom, hsts]
    exact ⟨_, _, rfl⟩
  · intro e s' h
    unfold Simulation.create_shard_block at h
    cases hg : s.shard_chains.get? i with
    | none =>
        simp only [hg] at h
        left
        refine ⟨List.get?_eq_none.mp hg, ?_⟩
        injection h with h1 h2
        injection h1 with h1
        exact h1.symm
    | some sc =>
        simp only [hg] at h
        cases hb : ShardBlock.tryFrom blk with
        | error e' =>
            simp only [hb] at h
            right
            have hce : collectTransactions blk.transactions = .error e' := by
              unfold ShardBlock.tryFrom at hb
              cases hc : collectTransactions blk.transactions with
              | error e2 => rw [hc] at hb; injection hb with hb1; rw [hb1]
              | ok v => rw [hc] at hb; cases hb
            obtain ⟨he, t, ht, hdec⟩ := collectTransactions_error blk.transactions e' hce
            injection h with h1 h2
            injection h1 with h1
            exact ⟨h1.symm.trans he, t, ht, hdec⟩
        | ok sb =>
            simp only [hb] at h
            injection h with h1 h2
            cases h1

theorem create_shard_block_no_ee_check_witness :
    ∃ ix s', Simulation.create_shard_block simOneChain ⟨0, hugeIdxBlock⟩ =
      (.ok ix, s') :=
  (create_shard_block_no_ee_check simOneChain 0 hugeIdxBlock).1 (by decide) (by decide)

/-- Claim C7 (amended): `simulation_state` is total (never fails) and
returns both counts reduced mod `2^32` — hence the exact counts whenever
each is below `2^32`; on a fresh ledger it returns `{0, 0}`, and after one
successful registration and one shard-chain creation it returns `{1, 1}`. -/
theorem simulation_state_spec (s : Simulation)
    (h1 : s.beacon_chain.execution_environments.length < U32MOD)
    (h2 : s.shard_chains.length < U32MOD) :
    Simulation.simulation_state s ⟨⟩ =
      ⟨s.beacon_chain.execution_environments.length, s.shard_chains.length⟩ ∧
    Simulation.simulation_state Simulation.new ⟨⟩ = ⟨0, 0⟩ ∧
    Simulation.simulation_state
      (Simulation.create_shard_chain
        (Simulation.create_execution_environment Simulation.new helloArg).2 ⟨⟩).2 ⟨⟩ =
      ⟨1, 1⟩ := by
  refine ⟨?_, by decide, by decide⟩
  unfold Simulation.simulation_state
  rw [Nat.mod_eq_of_lt h1, Nat.mod_eq_of_lt h2]

theorem simulation_state_spec_witness :
    Simulation.simulation_state Simulation.new ⟨⟩ =
      ⟨Simulation.new.beacon_chain.execution_environments.length,
       Simulation.new.shard_chains.length⟩ ∧
    Simulation.simulation_state Simulation.new ⟨⟩ = ⟨0, 0⟩ ∧
    Simulation.simulation_state
      (Simulation.create_shard_chain
        (Simulation.create_execution_environment Simulation.new helloArg).2 ⟨⟩).2 ⟨⟩ =
      ⟨1, 1⟩ :=
  simulation_state_spec Simulation.new (by decide) (by decide)

/-- Claim C7, counterexample to the claim as stated: on a ledger holding
`2^32` shard chains, `simulation_state` reports `0` shard chains (the
`as u32` cast wraps), not the current number. -/
theorem simulation_state_wraps :
    iterChains U32MOD Simulation.new = bigSimC7 ∧
    Simulation.simulation_state bigSimC7 ⟨⟩ = ⟨0, 0⟩ ∧
    bigSimC7.shard_chains.length ≠ 0 := by
  refine ⟨bigSimC7_reachable, ?_⟩
  have hch : bigSimC7.shard_chains = List.replicate U32MOD ShardChain.new := rfl
  have hlen : bigSimC7.shard_chains.length = U32MOD := by
    rw [hch, List.length_replicate]
  constructor
  · show (⟨bigSimC7.beacon_chain.execution_environments.length % U32MOD,
        bigSimC7.shard_chains.length % U32MOD⟩ : ArgsSimulationState) = ⟨0, 0⟩
    rw [hlen, Nat.mod_self,
      show bigSimC7.beacon_chain.execution_environments.length = 0 from rfl,
      Nat.zero_mod]
  · rw [hlen]
    exact (Nat.two_pow_pos 32).ne.symm

/-- Claim C10 (frame properties): `create_execution_environment` leaves the
shard-chain list (hence every chain's blocks and state map) unchanged;
`create_shard_chain` leaves the beacon chain unchanged and only appends a
fresh chain; a successful `create_shard_block` leaves the beacon chain and
every other shard chain unchanged and replaces the target chain by the same
chain (same state map, same existing blocks) with exactly one block
appended. -/
theorem frame_properties (s : Simulation) :
    (∀ a r s', Simulation.create_execution_environment s a = (r, s') →
      s'.shard_chains = s.shard_chains) ∧
    (∀ a ix s', Simulation.create_shard_chain s a = (ix, s') →
      s'.beacon_chain = s.beacon_chain ∧
      s'.shard_chains = s.shard_chains ++ [ShardChain.new]) ∧
    (∀ i blk ix s', Simulation.create_shard_block s ⟨i, blk⟩ = (.ok ix, s') →
      s'.beacon_chain = s.beacon_chain ∧
      (∀ k, k ≠ i → s'.shard_chains.get? k = s.shard_chains.get? k) ∧
      ∃ sc sb, s.shard_chains.get? i = some sc ∧
        s'.shard_chains.get? i =
          some { sc with shard_blocks := sc.shard_blocks ++ [sb] }) := by
  refine ⟨?_, ?_, ?_⟩
  · intro a r s' h
    unfold Simulation.create_execution_environment at h
    cases htf : ExecutionEnvironment.tryFrom a.execution_environment with
    | error e =>
        rw [htf] at h
        injection h with h1 h2
        rw [← h2]
    | ok ee =>
        rw [htf] at h
        simp only [BeaconChain.add_execution_environment] at h
        injection h with h1 h2
        rw [← h2]
  · intro a ix s' h
    unfold Simulation.create_shard_chain at h
    injection h with h1 h2
    rw [← h2]
    exact ⟨rfl, rfl⟩
  · intro i blk ix s' h
    unfold Simulation.create_shard_block at h
    cases hg : s.shard_chains.get? i with
    | none =>
        simp only [hg] at h
        injection h with h1 h2
        cases h1
    | some sc =>
        simp only [hg] at h
        cases hb : ShardBlock.tryFrom blk with
        | error e =>
            simp only [hb] at h
            injection h with h1 h2
            cases h1
        | ok sb =>
            simp only [hb] at h
            injection h with h1 h2
            have hlt : i < s.shard_chains.length := by
              obtain ⟨hl, -⟩ := List.get?_eq_some.mp hg
              exact hl
            refine ⟨?_, ?_, sc, sb, rfl, ?_⟩
            · rw [← h2]
            · intro k hk
              rw [← h2]
              exact List.get?_set_ne _ _ (fun he => hk he.symm)
            · rw [← h2]
              exact List.get?_set_eq_of_lt _ hlt

theorem frame_properties_witness :
    stEE.shard_chains = simWithBlock.shard_chains ∧
    stChain.shard_chains = simWithBlock.shard_chains ++ [ShardChain.new] ∧
    stBlock.shard_chains.get? 3 = simWithBlock.shard_chains.get? 3 :=
  ⟨(frame_properties simWithBlock).1 helloArg (.ok 0) stEE rfl,
   ((frame_properties simWithBlock).2.1 ⟨⟩ 1 stChain rfl).2,
   (((frame_properties simWithBlock).2.2 0 blkGood 1 stBlock rfl).2.1 3 (by decide))⟩
